import Mathlib

/-
Shallow embedding of the StallionNFT Soroban contract
(src/stallionNFT/contracts/stallion/src/lib.rs, the most complete of the
repository's variants and the one the specification follows).

Modelling choices:
- Addresses (soroban Address) are modelled as Nat; the "null address"
  sentinel produced by `Address::from_string_bytes(&[0; 32])` in `owner_of`
  is the constant `zeroAddr = 0`.
- Token ids and the token counter (i128) are modelled as Int.  The only
  arithmetic performed on them is `+ 1` under the guard `< 2000`, so no
  overflow is reachable and plain Int is exact.
- The contract storage becomes the record `Store`, one field per DataKey
  namespace.  The `Approvals(i128)` slot is heterogeneous in the source:
  `mint` stores a `MintTo` struct there while `approve` / `is_approved` /
  `transfer_from` read it as `Vec<Address>`; the slot therefore holds an
  `ApprovalVal` (either a vector of addresses or a MintTo record).
- soroban-sdk `storage().get::<K, V>` returns None when the key is absent
  and PANICS when a stored value cannot be converted into V
  (`V::try_from_val(..).unwrap_optimized()`).  Reading a slot that holds a
  MintTo record as `Vec<Address>` (a host Map value read as a host Vec) is
  such a conversion failure; it is modelled as the error `conversionError`.
- Rust panics / failed asserts abort the transaction; they are modelled as
  `Res.panic e s` where `s` is the store state at the moment of the panic,
  so "no partial writes" is a provable property rather than an assumption.
- `require_auth` is an external authentication authority per the spec
  (section 6) and is not part of the store state machine; it is elided.
- Each panic site is mapped onto the spec's error kind (section 7); the
  original panic message is quoted in a comment at the site.
-/

namespace StallionNFT

/-- Addresses (soroban `Address`), modelled as naturals. -/
abbrev Addr : Type := Nat

/-- The sentinel built by `Address::from_string_bytes(&Bytes[0; 32])`. -/
def zeroAddr : Addr := 0

/-- Maximum supply of tokens: `const SUPPLY: i128 = 2000`. -/
def SUPPLY : Int := 2000

/-- `const METADATA` of the contract. -/
def METADATA : String := "https://ipfs.io/ipfs/bafkreibzw25uz3cxnpd4ditc2s7ngyea2hpq45s7psbs27dm3z6r57rzbe"

/-- `const IMAGE` of the contract. -/
def IMAGE : String := "https://ipfs.io/ipfs/bafybeichocyvocmrrixgunzlrcnj4u7sbg3cst54mp3e3begu4qiphe3jq"

/-- The `MintTo` struct stored by `mint` under the `Approvals` key. -/
structure MintTo where
  address : Addr
  token_id : Int
  metadata : String
  image : String
deriving DecidableEq

/-- Value stored under a `DataKey::Approvals(i128)` slot.  The source
stores two different types there: `approve` writes a `Vec<Address>` while
`mint` writes a `MintTo` struct. -/
inductive ApprovalVal where
  | vecAddr (l : List Addr)
  | mintTo (m : MintTo)
deriving DecidableEq

/-- Error kinds of section 7 of the spec, one per panic site, plus the
soroban value-conversion panic raised by `get::<K,V>` on a slot holding an
incompatible type. -/
inductive Err where
  | alreadyWhitelisted
  | notAuthorized
  | notWhitelisted
  | alreadyMinted
  | supplyExhausted
  | notTokenOwner
  | fromNotOwner
  | spenderNotApproved
  | tokenNotFound
  | conversionError
deriving DecidableEq

/-- Events published by the contract. -/
inductive Event where
  | mintEv (dst : Addr) (token_id : Int)
  | transferEv (source dst : Addr) (token_id : Int)
  | approvalEv (owner dst : Addr) (token_id : Int)
deriving DecidableEq

/-- The contract storage: one field per `DataKey` namespace. -/
structure Store where
  admin : Addr → Option Addr
  whitelist : Option (List Addr)
  tokenCount : Option Int
  owner : Int → Option Addr
  approvals : Int → Option ApprovalVal
  hasMinted : Addr → Option Bool

/-- Point update of a partial map (storage `set`). -/
def upd {κ β : Type} [DecidableEq κ] (m : κ → Option β) (k : κ) (v : β) : κ → Option β :=
  fun x => if x = k then some v else m x

/-- Point removal from a partial map (storage `remove`). -/
def del {κ β : Type} [DecidableEq κ] (m : κ → Option β) (k : κ) : κ → Option β :=
  fun x => if x = k then none else m x

/-- Result of one contract invocation: either normal completion with the
updated store and published events, or a panic carrying the store state at
the moment of the panic (so partial writes, were there any, would show). -/
inductive Res (α : Type) where
  | ok (a : α) (s : Store) (evs : List Event)
  | panic (e : Err) (s : Store)

/-- `get::<DataKey, Vec<Address>>(&Approvals(id))`: absent gives none,
a stored vector converts, a stored MintTo struct is a conversion panic. -/
def getVecAddr (s : Store) (token_id : Int) : Except Err (Option (List Addr)) :=
  match s.approvals token_id with
  | none => .ok none
  | some (.vecAddr l) => .ok (some l)
  | some (.mintTo _) => .error .conversionError

/-- `__constructor(env, admin)`: stores `admin` under `Admin(admin)`. -/
def construct (s : Store) (admin : Addr) : Store :=
  { s with admin := upd s.admin admin admin }

/-- `owner_of(env, token_id)`: the stored owner, else the zero sentinel. -/
def owner_of (s : Store) (token_id : Int) : Addr :=
  (s.owner token_id).getD zeroAddr

/-- `add_to_whitelist(env, address)`. -/
def add_to_whitelist (s : Store) (address : Addr) : Res Unit :=
  if (s.whitelist.getD []).contains address then
    -- panic "Address is already whitelisted"
    .panic .alreadyWhitelisted s
  else
    .ok () { s with whitelist := some (s.whitelist.getD [] ++ [address]) } []

/-- `get_whitelist(env)`. -/
def get_whitelist (s : Store) : List Addr :=
  s.whitelist.getD []

/-- `remove_from_whitelist(env, admin, address)`. -/
def remove_from_whitelist (s : Store) (admin address : Addr) : Res Unit :=
  match s.admin admin with
  | none =>
    -- expect "Admin address not set"
    .panic .notAuthorized s
  | some stored_admin =>
    if admin = stored_admin then
      match s.whitelist with
      | none =>
        -- expect "Whitelist does not exist"
        .panic .notWhitelisted s
      | some whitelist =>
        match whitelist.findIdx? (fun x => x = address) with
        | some pos => .ok () { s with whitelist := some (whitelist.eraseIdx pos) } []
        | none =>
          -- panic "Address not whitelisted"
          .panic .notWhitelisted s
    else
      -- assert_eq "Caller is not the admin"
      .panic .notAuthorized s

/-- `is_approved(env, operator, token_id)`: reads the `Approvals` slot as
`Vec<Address>` (conversion panic when it holds a MintTo record). -/
def is_approved (s : Store) (operator : Addr) (token_id : Int) : Except Err Bool :=
  match getVecAddr s token_id with
  | .error e => .error e
  | .ok o => .ok ((o.getD []).contains operator)

/-- `transfer(env, owner, dst, token_id)` (source names `dst` as `to`). -/
def transfer (s : Store) (owner dst : Addr) (token_id : Int) : Res Unit :=
  if owner = owner_of s token_id then
    .ok ()
      { s with owner := upd s.owner token_id dst,
               approvals := del s.approvals token_id }
      [.transferEv owner dst token_id]
  else
    -- panic "Not the token owner"
    .panic .notTokenOwner s

/-- `mint(env, dst)` (source names `dst` as `to`): whitelist check, mint-once check, supply check, then
writes the MintTo record (under `Approvals(new id)`!), the counter, the
owner and the has-minted flag, and emits a Mint event. -/
def mint (s : Store) (dst : Addr) : Res Unit :=
  match s.whitelist with
  | none =>
    -- expect "Whitelist not found"
    .panic .notWhitelisted s
  | some whitelist =>
    if whitelist.contains dst then
      if (s.hasMinted dst).getD false then
        -- assert "Address has already minted a token"
        .panic .alreadyMinted s
      else
        if s.tokenCount.getD 0 < SUPPLY then
          .ok ()
            { s with
              approvals := upd s.approvals (s.tokenCount.getD 0 + 1)
                (.mintTo { address := dst, token_id := s.tokenCount.getD 0 + 1,
                           metadata := METADATA, image := IMAGE }),
              tokenCount := some (s.tokenCount.getD 0 + 1),
              owner := upd s.owner (s.tokenCount.getD 0 + 1) dst,
              hasMinted := upd s.hasMinted dst true }
            [.mintEv dst (s.tokenCount.getD 0 + 1)]
        else
          -- assert "Maximum token supply reached"
          .panic .supplyExhausted s
    else
      -- assert "Address not whitelisted"
      .panic .notWhitelisted s

/-- `get_token_image(env, token_id)`: reads the `Approvals` slot as a
MintTo record; absent is the expect-panic, a stored address vector is a
conversion panic. -/
def get_token_image (s : Store) (token_id : Int) : Except Err String :=
  match s.approvals token_id with
  | some (.mintTo m) => .ok m.image
  | some (.vecAddr _) => .error .conversionError
  | none =>
    -- expect "MintTo struct not found for this token"
    .error .tokenNotFound

/-- `get_token_metadata(env, token_id)`. -/
def get_token_metadata (s : Store) (token_id : Int) : Except Err String :=
  match s.approvals token_id with
  | some (.mintTo m) => .ok m.metadata
  | some (.vecAddr _) => .error .conversionError
  | none =>
    -- expect "MintTo struct not found for this token"
    .error .tokenNotFound

/-- `approve(env, owner, dst, token_id)` (source names `dst` as `to`). -/
def approve (s : Store) (owner dst : Addr) (token_id : Int) : Res Unit :=
  if owner = owner_of s token_id then
    match getVecAddr s token_id with
    | .error e => .panic e s
    | .ok o =>
      if (o.getD []).contains dst then
        .ok () s []
      else
        .ok ()
          { s with approvals := upd s.approvals token_id (.vecAddr (o.getD [] ++ [dst])) }
          [.approvalEv owner dst token_id]
  else
    -- panic "Not the token owner"
    .panic .notTokenOwner s

/-- `transfer_from(env, spender, source, dst, token_id)` (source names: `from`, `to`). -/
def transfer_from (s : Store) (spender source dst : Addr) (token_id : Int) : Res Unit :=
  if source ≠ owner_of s token_id then
    -- panic "From not owner"
    .panic .fromNotOwner s
  else
    match getVecAddr s token_id with
    | .error e => .panic e s
    | .ok o =>
      if (o.getD []).contains spender then
        .ok ()
          { s with owner := upd s.owner token_id dst,
                   approvals := del s.approvals token_id }
          [.transferEv source dst token_id]
      else
        -- panic "Spender is not approved for this token"
        .panic .spenderNotApproved s

/-- The scan loop of `get_nft_by_address` over a list of token ids. -/
def findNft (s : Store) (address : Addr) : List Int → Except Err (Option MintTo)
  | [] => .ok none
  | id :: rest =>
    match s.approvals id with
    | some (.mintTo m) =>
      if m.address = address then .ok (some m) else findNft s address rest
    | some (.vecAddr _) => .error .conversionError
    | none => findNft s address rest

/-- Token ids `1..=token_count` as a list. -/
def idRange (n : Int) : List Int :=
  (List.range n.toNat).map (fun i => (i : Int) + 1)

/-- `get_nft_by_address(env, address)`: linear scan over ids
`1..=TokenCount` for the first MintTo record matching `address`. -/
def get_nft_by_address (s : Store) (address : Addr) : Except Err (Option MintTo) :=
  findNft s address (idRange (s.tokenCount.getD 0))

/-- One invocation of a (mutating) contract entry point, with arguments. -/
inductive OpCall where
  | constructOp (admin : Addr)
  | addToWhitelistOp (address : Addr)
  | removeFromWhitelistOp (admin address : Addr)
  | mintOp (dst : Addr)
  | approveOp (owner dst : Addr) (token_id : Int)
  | transferOp (owner dst : Addr) (token_id : Int)
  | transferFromOp (spender source dst : Addr) (token_id : Int)
deriving DecidableEq

/-- Dispatch one contract invocation against a store. -/
def runOp : OpCall → Store → Res Unit
  | .constructOp a, s => .ok () (construct s a) []
  | .addToWhitelistOp a, s => add_to_whitelist s a
  | .removeFromWhitelistOp a b, s => remove_from_whitelist s a b
  | .mintOp t, s => mint s t
  | .approveOp o t i, s => approve s o t i
  | .transferOp o t i, s => transfer s o t i
  | .transferFromOp sp f t i, s => transfer_from s sp f t i

/-- The empty store a fresh contract instance starts from. -/
def initStore : Store :=
  { admin := fun _ => none, whitelist := none, tokenCount := none,
    owner := fun _ => none, approvals := fun _ => none, hasMinted := fun _ => none }

/-- Execution traces: `ReachTr s tr` means the store `s` is reached from
the fresh instance by the invocations in `tr`, each paired with whether it
completed (true) or panicked (false). -/
inductive ReachTr : Store → List (OpCall × Bool) → Prop where
  | init : ReachTr initStore []
  | stepOk (s s' : Store) (tr : List (OpCall × Bool)) (op : OpCall)
      (a : Unit) (evs : List Event) :
      ReachTr s tr → runOp op s = .ok a s' evs → ReachTr s' (tr ++ [(op, true)])
  | stepPanic (s s' : Store) (tr : List (OpCall × Bool)) (op : OpCall) (e : Err) :
      ReachTr s tr → runOp op s = .panic e s' → ReachTr s' (tr ++ [(op, false)])

/-- A store is reachable when some trace reaches it. -/
def Reachable (s : Store) : Prop :=
  ∃ tr, ReachTr s tr

/-- Token ids carried by the Mint events in a list of events. -/
def mintEvIds : List Event → List Int
  | [] => []
  | .mintEv _ i :: rest => i :: mintEvIds rest
  | .transferEv _ _ _ :: rest => mintEvIds rest
  | .approvalEv _ _ _ :: rest => mintEvIds rest

/-- Run a sequence of `mint` calls (each call is its own transaction, a
panic leaving the carried store) and collect the assigned token ids from
the Mint events. -/
def runMints (s : Store) : List Addr → Store × List Int
  | [] => (s, [])
  | a :: rest =>
    match mint s a with
    | .ok _ s' evs => ((runMints s' rest).1, mintEvIds evs ++ (runMints s' rest).2)
    | .panic _ s' => runMints s' rest

/-
Helper lemmas: exact shapes of each operation's outcomes.
-/

/-- A panicking `add_to_whitelist` leaves the store untouched. -/
lemma add_to_whitelist_panic {s : Store} {a : Addr} {e : Err} {s' : Store}
    (h : add_to_whitelist s a = .panic e s') : s' = s := by
  unfold add_to_whitelist at h
  split at h
  · injection h with h1 h2
    exact h2.symm
  · exact Res.noConfusion h

/-- Shape of a successful `add_to_whitelist`. -/
lemma add_to_whitelist_ok {s : Store} {a : Addr} {u : Unit} {s' : Store} {evs : List Event}
    (h : add_to_whitelist s a = .ok u s' evs) :
    s' = { s with whitelist := some (s.whitelist.getD [] ++ [a]) } ∧ evs = [] := by
  unfold add_to_whitelist at h
  split at h
  · exact Res.noConfusion h
  · injection h with h1 h2 h3
    exact ⟨h2.symm, h3.symm⟩

/-- A panicking `remove_from_whitelist` leaves the store untouched. -/
lemma remove_from_whitelist_panic {s : Store} {a b : Addr} {e : Err} {s' : Store}
    (h : remove_from_whitelist s a b = .panic e s') : s' = s := by
  unfold remove_from_whitelist at h
  split at h
  · injection h with h1 h2
    exact h2.symm
  · split at h
    · split at h
      · injection h with h1 h2
        exact h2.symm
      · split at h
        · exact Res.noConfusion h
        · injection h with h1 h2
          exact h2.symm
    · injection h with h1 h2
      exact h2.symm

/-- Shape of a successful `remove_from_whitelist`: only the whitelist
entry changes. -/
lemma remove_from_whitelist_ok {s : Store} {a b : Addr} {u : Unit} {s' : Store}
    {evs : List Event} (h : remove_from_whitelist s a b = .ok u s' evs) :
    ∃ wl : List Addr, s' = { s with whitelist := some wl } ∧ evs = [] := by
  unfold remove_from_whitelist at h
  split at h
  · exact Res.noConfusion h
  · split at h
    · split at h
      · exact Res.noConfusion h
      · split at h
        · injection h with h1 h2 h3
          exact ⟨_, h2.symm, h3.symm⟩
        · exact Res.noConfusion h
    · exact Res.noConfusion h

/-- A panicking `mint` leaves the store untouched. -/
lemma mint_panic {s : Store} {d : Addr} {e : Err} {s' : Store}
    (h : mint s d = .panic e s') : s' = s := by
  unfold mint at h
  split at h
  · injection h with h1 h2
    exact h2.symm
  · split at h
    · split at h
      · injection h with h1 h2
        exact h2.symm
      · split at h
        · exact Res.noConfusion h
        · injection h with h1 h2
          exact h2.symm
    · injection h with h1 h2
      exact h2.symm

/-- Shape of a successful `mint`: the supply guard held, the counter moved
to `old + 1`, the owner and has-minted entries were written, the MintTo
record was stored under `Approvals(old + 1)`, and a Mint event fired. -/
lemma mint_ok {s : Store} {d : Addr} {u : Unit} {s' : Store} {evs : List Event}
    (h : mint s d = .ok u s' evs) :
    s.tokenCount.getD 0 < SUPPLY ∧
    (s.whitelist.getD []).contains d = true ∧
    (s.hasMinted d).getD false = false ∧
    s' = { s with
           approvals := upd s.approvals (s.tokenCount.getD 0 + 1)
             (.mintTo { address := d, token_id := s.tokenCount.getD 0 + 1,
                        metadata := METADATA, image := IMAGE }),
           tokenCount := some (s.tokenCount.getD 0 + 1),
           owner := upd s.owner (s.tokenCount.getD 0 + 1) d,
           hasMinted := upd s.hasMinted d true } ∧
    evs = [.mintEv d (s.tokenCount.getD 0 + 1)] := by
  unfold mint at h
  split at h
  · exact Res.noConfusion h
  · rename_i wl hwl
    split at h
    · rename_i hcontains
      split at h
      · exact Res.noConfusion h
      · rename_i hhm
        split at h
        · rename_i hlt
          injection h with h1 h2 h3
          refine ⟨hlt, ?_, ?_, h2.symm, h3.symm⟩
          · rw [hwl]
            simpa using hcontains
          · simpa using hhm
        · exact Res.noConfusion h
    · exact Res.noConfusion h

/-- A panicking `transfer` leaves the store untouched. -/
lemma transfer_panic {s : Store} {o d : Addr} {i : Int} {e : Err} {s' : Store}
    (h : transfer s o d i = .panic e s') : s' = s := by
  unfold transfer at h
  split at h
  · exact Res.noConfusion h
  · injection h with h1 h2
    exact h2.symm

/-- Shape of a successful `transfer`: the owner check held, the owner
entry was rewritten and the `Approvals` entry removed. -/
lemma transfer_ok {s : Store} {o d : Addr} {i : Int} {u : Unit} {s' : Store}
    {evs : List Event} (h : transfer s o d i = .ok u s' evs) :
    o = owner_of s i ∧
    s' = { s with owner := upd s.owner i d, approvals := del s.approvals i } ∧
    evs = [.transferEv o d i] := by
  unfold transfer at h
  split at h
  · rename_i hown
    injection h with h1 h2 h3
    exact ⟨hown, h2.symm, h3.symm⟩
  · exact Res.noConfusion h

/-- A panicking `approve` leaves the store untouched. -/
lemma approve_panic {s : Store} {o d : Addr} {i : Int} {e : Err} {s' : Store}
    (h : approve s o d i = .panic e s') : s' = s := by
  unfold approve at h
  split at h
  · split at h
    · injection h with h1 h2
      exact h2.symm
    · split at h
      · exact Res.noConfusion h
      · exact Res.noConfusion h
  · injection h with h1 h2
    exact h2.symm

/-- Shape of a successful `approve`: either the target was already in the
approval vector (no store change, no event) or it was appended and an
Approval event fired. -/
lemma approve_ok {s : Store} {o d : Addr} {i : Int} {u : Unit} {s' : Store}
    {evs : List Event} (h : approve s o d i = .ok u s' evs) :
    o = owner_of s i ∧
    ∃ l : Option (List Addr), getVecAddr s i = .ok l ∧
      ((l.getD []).contains d = true ∧ s' = s ∧ evs = [] ∨
       (l.getD []).contains d = false ∧
         s' = { s with approvals := upd s.approvals i (.vecAddr (l.getD [] ++ [d])) } ∧
         evs = [.approvalEv o d i]) := by
  unfold approve at h
  split at h
  · rename_i hown
    split at h
    · exact Res.noConfusion h
    · rename_i l hget
      split at h
      · rename_i hcont
        injection h with h1 h2 h3
        exact ⟨hown, l, hget, Or.inl ⟨hcont, h2.symm, h3.symm⟩⟩
      · rename_i hcont
        injection h with h1 h2 h3
        exact ⟨hown, l, hget, Or.inr ⟨by simpa using hcont, h2.symm, h3.symm⟩⟩
  · exact Res.noConfusion h

/-- A panicking `transfer_from` leaves the store untouched. -/
lemma transfer_from_panic {s : Store} {sp f d : Addr} {i : Int} {e : Err} {s' : Store}
    (h : transfer_from s sp f d i = .panic e s') : s' = s := by
  unfold transfer_from at h
  split at h
  · injection h with h1 h2
    exact h2.symm
  · split at h
    · injection h with h1 h2
      exact h2.symm
    · split at h
      · exact Res.noConfusion h
      · injection h with h1 h2
        exact h2.symm

/-- Shape of a successful `transfer_from`: the ownership and approval
checks held, the owner entry was rewritten and the `Approvals` entry
removed. -/
lemma transfer_from_ok {s : Store} {sp f d : Addr} {i : Int} {u : Unit} {s' : Store}
    {evs : List Event} (h : transfer_from s sp f d i = .ok u s' evs) :
    f = owner_of s i ∧
    (∃ l : Option (List Addr), getVecAddr s i = .ok l ∧ (l.getD []).contains sp = true) ∧
    s' = { s with owner := upd s.owner i d, approvals := del s.approvals i } ∧
    evs = [.transferEv f d i] := by
  unfold transfer_from at h
  split at h
  · exact Res.noConfusion h
  · rename_i hf
    split at h
    · exact Res.noConfusion h
    · rename_i l hget
      split at h
      · rename_i hcont
        injection h with h1 h2 h3
        refine ⟨by simpa using hf, ⟨l, hget, hcont⟩, h2.symm, h3.symm⟩
      · exact Res.noConfusion h

/-- Any panicking invocation leaves the store untouched. -/
lemma runOp_panic {op : OpCall} {s : Store} {e : Err} {s' : Store}
    (h : runOp op s = .panic e s') : s' = s := by
  cases op with
  | constructOp a => exact Res.noConfusion h
  | addToWhitelistOp a => exact add_to_whitelist_panic h
  | removeFromWhitelistOp a b => exact remove_from_whitelist_panic h
  | mintOp d => exact mint_panic h
  | approveOp o d i => exact approve_panic h
  | transferOp o d i => exact transfer_panic h
  | transferFromOp sp f d i => exact transfer_from_panic h

/-- The store of a successful invocation, none on a panic. -/
def okState : Res Unit → Option Store
  | .ok _ s _ => some s
  | .panic _ _ => none

/-
Concrete stores used by the closed evaluation theorems and the witnesses.
-/

/-- A fresh instance whose whitelist holds address 2. -/
def sWl2 : Store := { initStore with whitelist := some [2] }

/-- A fresh instance whose whitelist holds address 1. -/
def sWl1 : Store := { initStore with whitelist := some [1] }

/-- Whitelist holds 4 and address 9 is (impossibly, for a reachable store)
marked as having minted: exercises the mint precondition order. -/
def sC3a : Store :=
  { initStore with whitelist := some [4], hasMinted := upd initStore.hasMinted 9 true }

/-- Whitelist holds 4 and 4 has minted already. -/
def sC3b : Store :=
  { initStore with whitelist := some [4], hasMinted := upd initStore.hasMinted 4 true }

/-- Whitelist holds 4 and the token counter sits at the maximum supply. -/
def sC3c : Store :=
  { initStore with whitelist := some [4], tokenCount := some 2000 }

/-- Token 1 is owned by 2 with approval vector [3]. -/
def sTok : Store :=
  { initStore with owner := upd initStore.owner 1 2,
                   approvals := upd initStore.approvals 1 (.vecAddr [3]) }

/-- `sTok` after `transfer(2, 7, 1)`. -/
def sTokMoved : Store :=
  { sTok with owner := upd sTok.owner 1 7, approvals := del sTok.approvals 1 }

/-- C1: after a successful `mint(to)` assigning token id t the claim wants
`Owned(to, approvals = {})`, with `is_approved(op, t)` false for every
operator.  The ownership half holds, but `mint` stores the MintTo record
under `Approvals(t)` — the very key `is_approved` reads as `Vec<Address>`
— so `is_approved` hits a value-conversion panic instead of returning
false.  This closed theorem evaluates the code at the failing input:
whitelist [2], `mint(2)` succeeds with token id 1 and owner 2, and
`is_approved(3, 1)` panics. -/
theorem C1_mint_leaves_empty_approvals_code_bug :
    (okState (mint sWl2 2)).map (fun s' => (owner_of s' 1, is_approved s' 3 1))
      = some (2, .error .conversionError) := by
  rfl

/-- C2: for every operation and every starting state, a failing invocation
leaves the entire store state identical to the pre-call state: the result
of a panic carries exactly the store it started from (every panic site in
the source runs before the first storage write). -/
theorem C2_failure_no_partial_writes (op : OpCall) (s : Store) (e : Err) (s' : Store)
    (h : runOp op s = .panic e s') : s' = s :=
  runOp_panic h

/-- Witness for C2: `add_to_whitelist(1)` on a store already whitelisting
1 panics with `AlreadyWhitelisted` and the carried state is unchanged. -/
theorem C2_failure_no_partial_writes_witness : sWl1 = sWl1 :=
  C2_failure_no_partial_writes (.addToWhitelistOp 1) sWl1 .alreadyWhitelisted sWl1 rfl

/-- C3: `mint` checks its preconditions in a fixed order with the first
failure winning: whitelist membership (else NotWhitelisted), then the
has-minted flag (else AlreadyMinted), then the supply bound (else
SupplyExhausted).  In particular a caller absent from the whitelist fails
with NotWhitelisted regardless of the has-minted flag. -/
theorem C3_mint_precondition_order (s : Store) (d : Addr) :
    ((s.whitelist.getD []).contains d = false → mint s d = .panic .notWhitelisted s) ∧
    ((s.whitelist.getD []).contains d = true → (s.hasMinted d).getD false = true →
      mint s d = .panic .alreadyMinted s) ∧
    ((s.whitelist.getD []).contains d = true → (s.hasMinted d).getD false = false →
      ¬ s.tokenCount.getD 0 < SUPPLY → mint s d = .panic .supplyExhausted s) := by
  refine ⟨?_, ?_, ?_⟩
  · intro hc
    cases hw : s.whitelist with
    | none => simp [mint, hw]
    | some wl =>
      rw [hw] at hc
      have hc2 : ¬ d ∈ wl := by simpa using hc
      simp [mint, hw, hc2]
  · intro hc hm
    cases hw : s.whitelist with
    | none => rw [hw] at hc; simp at hc
    | some wl =>
      rw [hw] at hc
      have hc2 : d ∈ wl := by simpa using hc
      simp [mint, hw, hc2, hm]
  · intro hc hm hcnt
    cases hw : s.whitelist with
    | none => rw [hw] at hc; simp at hc
    | some wl =>
      rw [hw] at hc
      have hc2 : d ∈ wl := by simpa using hc
      simp [mint, hw, hc2, hm, hcnt]

/-- Witness for C3: address 9 is not whitelisted and has (per the store)
already minted, and the failure is NotWhitelisted, not AlreadyMinted; a
whitelisted repeat minter fails AlreadyMinted; a whitelisted fresh minter
at full supply fails SupplyExhausted. -/
theorem C3_mint_precondition_order_witness :
    mint sC3a 9 = .panic .notWhitelisted sC3a ∧
    mint sC3b 4 = .panic .alreadyMinted sC3b ∧
    mint sC3c 4 = .panic .supplyExhausted sC3c :=
  ⟨(C3_mint_precondition_order sC3a 9).1 (by decide),
   (C3_mint_precondition_order sC3b 4).2.1 (by decide) (by decide),
   (C3_mint_precondition_order sC3c 4).2.2 (by decide) (by decide) (by decide)⟩

/-- C7: after a successful `transfer(owner, to, id)` the approval set of
the token is entirely cleared: `is_approved(op, id)` returns false for
every operator. -/
theorem C7_transfer_clears_approvals (s : Store) (o d : Addr) (i : Int)
    (u : Unit) (s' : Store) (evs : List Event)
    (h : transfer s o d i = .ok u s' evs) (operator : Addr) :
    is_approved s' operator i = .ok false := by
  obtain ⟨-, hs', -⟩ := transfer_ok h
  subst hs'
  simp [is_approved, getVecAddr, del]

/-- Witness for C7: token 1 owned by 2 with approval vector [3]; after
`transfer(2, 7, 1)` the previously approved operator 3 is not approved. -/
theorem C7_transfer_clears_approvals_witness :
    is_approved sTokMoved 3 1 = .ok false :=
  C7_transfer_clears_approvals sTok 2 7 1 () sTokMoved [.transferEv 2 7 1] rfl 3

/-- C8: with `spender` in the token's approval vector and `source` the
current owner, `transfer_from` succeeds and `owner_of` then returns the
recipient; repeating the same call fails with `FromNotOwner` (or with
`SpenderNotApproved` when source = recipient, the approval set having been
cleared). -/
theorem C8_transfer_from_round_trip (s : Store) (sp f d : Addr) (i : Int) (l : List Addr)
    (h1 : s.approvals i = some (.vecAddr l)) (h2 : l.contains sp = true)
    (h3 : f = owner_of s i) :
    ∃ s' evs, transfer_from s sp f d i = .ok () s' evs ∧
      owner_of s' i = d ∧
      (f ≠ d → transfer_from s' sp f d i = .panic .fromNotOwner s') ∧
      (f = d → transfer_from s' sp f d i = .panic .spenderNotApproved s') := by
  refine ⟨{ s with owner := upd s.owner i d, approvals := del s.approvals i },
          [.transferEv f d i], ?_, ?_, ?_, ?_⟩
  · have hsp : sp ∈ l := by simpa using h2
    simp [transfer_from, h3, getVecAddr, h1, hsp]
  · simp [owner_of, upd]
  · intro hne
    have hown : owner_of { s with owner := upd s.owner i d, approvals := del s.approvals i } i = d := by
      simp [owner_of, upd]
    simp [transfer_from, hown, hne]
  · intro heq
    subst heq
    have hown : owner_of { s with owner := upd s.owner i f, approvals := del s.approvals i } i = f := by
      simp [owner_of, upd]
    simp [transfer_from, hown, getVecAddr, del]

/-- Witness for C8: token 1 owned by 2, approval vector [3];
`transfer_from(3, 2, 7, 1)` moves the token to 7 and the repeat call
fails with `FromNotOwner`. -/
theorem C8_transfer_from_round_trip_witness :
    ∃ s' evs, transfer_from sTok 3 2 7 1 = .ok () s' evs ∧
      owner_of s' 1 = 7 ∧
      ((2 : Addr) ≠ 7 → transfer_from s' 3 2 7 1 = .panic .fromNotOwner s') ∧
      ((2 : Addr) = 7 → transfer_from s' 3 2 7 1 = .panic .spenderNotApproved s') :=
  C8_transfer_from_round_trip sTok 3 2 7 1 [3] rfl (by decide) rfl

/-- C9: `approve` is idempotent: when the target is already in the token's
approval set, a second `approve` by the owner returns with the store
unchanged and emits no event; an Approval event is emitted only when the
call actually added a new entry. -/
theorem C9_approve_idempotent (s : Store) (o d : Addr) (i : Int) :
    (owner_of s i = o → is_approved s d i = .ok true → approve s o d i = .ok () s []) ∧
    (∀ s' evs, approve s o d i = .ok () s' evs → evs ≠ [] →
      evs = [.approvalEv o d i] ∧ is_approved s d i = .ok false) := by
  constructor
  · intro h1 h2
    cases hg : getVecAddr s i with
    | error e => rw [is_approved, hg] at h2; exact Except.noConfusion h2
    | ok lo =>
      rw [is_approved, hg] at h2
      injection h2 with h2
      have h2m : d ∈ lo.getD [] := by simpa using h2
      simp [approve, h1.symm, hg, h2m]
  · intro s' evs h hne
    obtain ⟨ho, lo, hget, hcase⟩ := approve_ok h
    rcases hcase with ⟨-, -, hevs⟩ | ⟨hcont, -, hevs⟩
    · exact absurd hevs hne
    · have hcm : d ∉ lo.getD [] := by simpa using hcont
      exact ⟨hevs, by rw [is_approved, hget]; simp [hcm]⟩

/-- Witness for C9: token 1 owned by 2 with approval vector [3];
re-approving 3 is a silent no-op, while approving fresh operator 6 emits
exactly one Approval event and 6 was not approved beforehand. -/
theorem C9_approve_idempotent_witness :
    approve sTok 2 3 1 = .ok () sTok [] ∧
    ([Event.approvalEv 2 6 1] = [Event.approvalEv 2 6 1] ∧
      is_approved sTok 6 1 = .ok false) :=
  ⟨(C9_approve_idempotent sTok 2 3 1).1 rfl rfl,
   (C9_approve_idempotent sTok 2 6 1).2
     { sTok with approvals := upd sTok.approvals 1 (.vecAddr [3, 6]) }
     [.approvalEv 2 6 1] rfl (by simp)⟩

/-- Splitting `map` over `range (n+1)` at the front, shifting the base. -/
lemma range_map_shift (c : Int) (n : Nat) :
    (List.range (n + 1)).map (fun k : Nat => c + (k : Int) + 1)
      = (c + 1) :: (List.range n).map (fun k : Nat => (c + 1) + (k : Int) + 1) := by
  rw [List.range_succ_eq_map, List.map_cons, List.map_map]
  refine congrArg₂ List.cons (by push_cast; ring) ?_
  have hfe : ((fun k : Nat => c + (k : Int) + 1) ∘ Nat.succ)
      = fun k : Nat => (c + 1) + (k : Int) + 1 := by
    funext k
    simp only [Function.comp, Nat.succ_eq_add_one]
    push_cast
    ring
  rw [hfe]

/-- Running a batch of mint calls: the counter advances by exactly the
number of Mint events, and the assigned ids are consecutive from the
starting counter value. -/
lemma runMints_spec (addrs : List Addr) : ∀ s : Store,
    (runMints s addrs).1.tokenCount.getD 0
        = s.tokenCount.getD 0 + ((runMints s addrs).2).length ∧
    (runMints s addrs).2
        = (List.range ((runMints s addrs).2).length).map
            (fun k : Nat => s.tokenCount.getD 0 + (k : Int) + 1) := by
  induction addrs with
  | nil => intro s; simp [runMints]
  | cons a rest ih =>
    intro s
    cases hm : mint s a with
    | panic e s' =>
      have hss : s' = s := mint_panic hm
      simp only [runMints, hm]
      rw [hss]
      exact ih s
    | ok u s' evs =>
      obtain ⟨hlt, hcont, hhm, hs', hevs⟩ := mint_ok hm
      have hc' : s'.tokenCount.getD 0 = s.tokenCount.getD 0 + 1 := by
        rw [hs']
        rfl
      obtain ⟨ih1, ih2⟩ := ih s'
      simp only [runMints, hm, hevs, mintEvIds]
      constructor
      · rw [ih1, hc']
        simp only [List.singleton_append, List.length_cons]
        push_cast
        ring
      · simp only [List.singleton_append, List.length_cons]
        rw [range_map_shift]
        refine congrArg (List.cons _) ?_
        conv_lhs => rw [ih2]
        rw [hc']

/-- C4: starting from a zero counter, after any sequence of `mint` calls
the counter equals the number of successful mints N and the assigned
token ids (read off the Mint events) are exactly 1..N, in increasing
order, with no gaps and no repeats; and a failed mint never changes the
counter. -/
theorem C4_token_ids_dense (s : Store) (addrs : List Addr)
    (h0 : s.tokenCount.getD 0 = 0) :
    ((runMints s addrs).1.tokenCount.getD 0 = ((runMints s addrs).2).length ∧
     (runMints s addrs).2
        = (List.range ((runMints s addrs).2).length).map (fun k : Nat => (k : Int) + 1)) ∧
    (∀ a e s', mint s a = .panic e s' → s'.tokenCount = s.tokenCount) := by
  constructor
  · obtain ⟨h1, h2⟩ := runMints_spec addrs s
    rw [h0] at h1 h2
    refine ⟨by rw [h1]; ring, ?_⟩
    have hfe : (fun k : Nat => (0 : Int) + (k : Int) + 1) = fun k : Nat => (k : Int) + 1 := by
      funext k
      ring
    conv_lhs => rw [h2]
    rw [hfe]
  · intro a e s' h
    rw [mint_panic h]

/-- Witness for C4: whitelist [10, 20], calls mint(10), mint(20),
mint(10): two succeed with ids [1, 2], the repeat fails and the final
counter is 2. -/
theorem C4_token_ids_dense_witness :
    ((runMints { initStore with whitelist := some [10, 20] } [10, 20, 10]).1.tokenCount.getD 0
        = ((runMints { initStore with whitelist := some [10, 20] } [10, 20, 10]).2).length ∧
     (runMints { initStore with whitelist := some [10, 20] } [10, 20, 10]).2
        = (List.range ((runMints { initStore with whitelist := some [10, 20] } [10, 20, 10]).2).length).map
            (fun k : Nat => (k : Int) + 1)) ∧
    (∀ a e s', mint { initStore with whitelist := some [10, 20] } a = .panic e s' →
      s'.tokenCount = ({ initStore with whitelist := some [10, 20] } : Store).tokenCount) :=
  C4_token_ids_dense { initStore with whitelist := some [10, 20] } [10, 20, 10] rfl

/-- A successful invocation either leaves the token counter unchanged or
(for `mint`, under the supply guard) advances it by one. -/
lemma runOp_ok_count {op : OpCall} {s : Store} {u : Unit} {s' : Store} {evs : List Event}
    (h : runOp op s = .ok u s' evs) :
    s'.tokenCount = s.tokenCount ∨
    (s.tokenCount.getD 0 < SUPPLY ∧ s'.tokenCount = some (s.tokenCount.getD 0 + 1)) := by
  cases op with
  | constructOp a =>
    injection h with h1 h2 h3
    left
    rw [← h2]
    rfl
  | addToWhitelistOp a =>
    obtain ⟨hs', -⟩ := add_to_whitelist_ok h
    left
    rw [hs']
  | removeFromWhitelistOp a b =>
    obtain ⟨wl, hs', -⟩ := remove_from_whitelist_ok h
    left
    rw [hs']
  | mintOp d =>
    obtain ⟨hlt, -, -, hs', -⟩ := mint_ok h
    right
    exact ⟨hlt, by rw [hs']⟩
  | approveOp o d i =>
    obtain ⟨-, l, -, hcase⟩ := approve_ok h
    rcases hcase with ⟨-, hs', -⟩ | ⟨-, hs', -⟩ <;> left <;> rw [hs']
  | transferOp o d i =>
    obtain ⟨-, hs', -⟩ := transfer_ok h
    left
    rw [hs']
  | transferFromOp sp f d i =>
    obtain ⟨-, -, hs', -⟩ := transfer_from_ok h
    left
    rw [hs']

/-- The token counter of every reachable store is at most 2000. -/
lemma reach_count_le {s : Store} {tr : List (OpCall × Bool)} (h : ReachTr s tr) :
    s.tokenCount.getD 0 ≤ 2000 := by
  induction h with
  | init => simp [initStore]
  | stepOk s s' tr op a evs hr hok ih =>
    rcases runOp_ok_count hok with hsame | ⟨hlt, hsucc⟩
    · rw [hsame]
      exact ih
    · rw [hsucc]
      simp only [Option.getD_some]
      simp only [SUPPLY] at hlt
      omega
  | stepPanic s s' tr op e hr hpan ih =>
    rw [runOp_panic hpan]
    exact ih

/-- A whitelisted store sitting at the maximum supply. -/
def sFull : Store :=
  { initStore with whitelist := some [5], tokenCount := some 2000 }

/-- C5: in every reachable store the token counter never exceeds 2000;
with the counter at (or, defensively, beyond) 2000 every further `mint`
fails leaving the store unchanged, and specifically with `SupplyExhausted`
once the whitelist and mint-once preconditions pass. -/
theorem C5_supply_never_exceeded :
    (∀ s : Store, Reachable s → s.tokenCount.getD 0 ≤ 2000) ∧
    (∀ (s : Store) (d : Addr), 2000 ≤ s.tokenCount.getD 0 →
      ∃ e, mint s d = .panic e s) ∧
    (∀ (s : Store) (d : Addr) (wl : List Addr), 2000 ≤ s.tokenCount.getD 0 →
      s.whitelist = some wl → wl.contains d = true →
      (s.hasMinted d).getD false = false → mint s d = .panic .supplyExhausted s) := by
  refine ⟨?_, ?_, ?_⟩
  · rintro s ⟨tr, h⟩
    exact reach_count_le h
  · intro s d hge
    have hcnt : ¬ s.tokenCount.getD 0 < SUPPLY := by
      simp only [SUPPLY]
      omega
    cases hw : s.whitelist with
    | none => exact ⟨.notWhitelisted, by simp [mint, hw]⟩
    | some wl =>
      by_cases hc : d ∈ wl
      · by_cases hm2 : (s.hasMinted d).getD false = true
        · exact ⟨.alreadyMinted, by simp [mint, hw, hc, hm2]⟩
        · exact ⟨.supplyExhausted, by simp [mint, hw, hc, hm2, hcnt]⟩
      · exact ⟨.notWhitelisted, by simp [mint, hw, hc]⟩
  · intro s d wl hge hw hc hm2
    have hcnt : ¬ s.tokenCount.getD 0 < SUPPLY := by
      simp only [SUPPLY]
      omega
    have hc2 : d ∈ wl := by simpa using hc
    simp [mint, hw, hc2, hm2, hcnt]

/-- Witness for C5: the fresh instance is reachable with counter 0 ≤ 2000,
and at the full store `sFull` a mint from whitelisted fresh address 5
fails with SupplyExhausted, state untouched. -/
theorem C5_supply_never_exceeded_witness :
    initStore.tokenCount.getD 0 ≤ 2000 ∧
    (∃ e, mint sFull 5 = .panic e sFull) ∧
    mint sFull 5 = .panic .supplyExhausted sFull :=
  ⟨C5_supply_never_exceeded.1 initStore ⟨[], ReachTr.init⟩,
   C5_supply_never_exceeded.2.1 sFull 5 (by decide),
   C5_supply_never_exceeded.2.2 sFull 5 [5] (by decide) rfl (by decide) (by decide)⟩

/-- A successful invocation sets the has-minted flag of `p` exactly when
it is `mint(p)`; every other invocation leaves the flag alone. -/
lemma runOp_ok_hasMinted {op : OpCall} {s : Store} {u : Unit} {s' : Store}
    {evs : List Event} (h : runOp op s = .ok u s' evs) (p : Addr) :
    (op = .mintOp p ∧ s'.hasMinted p = some true) ∨
    (op ≠ .mintOp p ∧ s'.hasMinted p = s.hasMinted p) := by
  cases op with
  | constructOp a =>
    injection h with h1 h2 h3
    right
    refine ⟨by simp, ?_⟩
    rw [← h2]
    rfl
  | addToWhitelistOp a =>
    obtain ⟨hs', -⟩ := add_to_whitelist_ok h
    right
    exact ⟨by simp, by rw [hs']⟩
  | removeFromWhitelistOp a b =>
    obtain ⟨wl, hs', -⟩ := remove_from_whitelist_ok h
    right
    exact ⟨by simp, by rw [hs']⟩
  | mintOp d =>
    obtain ⟨-, -, -, hs', -⟩ := mint_ok h
    by_cases hpd : d = p
    · subst hpd
      left
      refine ⟨rfl, ?_⟩
      rw [hs']
      simp [upd]
    · right
      refine ⟨by simp [hpd], ?_⟩
      rw [hs']
      show upd s.hasMinted d true p = s.hasMinted p
      rw [upd, if_neg (fun hh => hpd hh.symm)]
  | approveOp o d i =>
    obtain ⟨-, l, -, hcase⟩ := approve_ok h
    rcases hcase with ⟨-, hs', -⟩ | ⟨-, hs', -⟩ <;> right <;> exact ⟨by simp, by rw [hs']⟩
  | transferOp o d i =>
    obtain ⟨-, hs', -⟩ := transfer_ok h
    right
    exact ⟨by simp, by rw [hs']⟩
  | transferFromOp sp f d i =>
    obtain ⟨-, -, hs', -⟩ := transfer_from_ok h
    right
    exact ⟨by simp, by rw [hs']⟩

/-- In every reachable store, the has-minted flag of `p` is set exactly
when the trace contains a successful `mint(p)`. -/
lemma reach_hasMinted (p : Addr) {s : Store} {tr : List (OpCall × Bool)}
    (h : ReachTr s tr) :
    ((s.hasMinted p).getD false = true ↔ (OpCall.mintOp p, true) ∈ tr) := by
  induction h with
  | init => simp [initStore]
  | stepOk s s' tr op a evs hr hok ih =>
    rcases runOp_ok_hasMinted hok p with ⟨hop, hset⟩ | ⟨hne, hframe⟩
    · subst hop
      rw [hset]
      simp
    · rw [hframe, ih]
      constructor
      · intro hmem
        exact List.mem_append_left _ hmem
      · intro hmem
        rcases List.mem_append.mp hmem with hmem' | hmem'
        · exact hmem'
        · rw [List.mem_singleton] at hmem'
          injection hmem' with hop hb
          exact absurd hop.symm hne
  | stepPanic s s' tr op e hr hpan ih =>
    rw [runOp_panic hpan, ih]
    constructor
    · intro hmem
      exact List.mem_append_left _ hmem
    · intro hmem
      rcases List.mem_append.mp hmem with hmem' | hmem'
      · exact hmem'
      · rw [List.mem_singleton] at hmem'
        injection hmem' with hop hb
        exact Bool.noConfusion hb

/-- C6: in every reachable store, `HasMinted[p]` is true exactly when
some `mint(p)` has succeeded in the trace; and a second `mint` for the
same whitelisted address fails with `AlreadyMinted`, the panic carrying
the untouched store (ownership entries and token counter unchanged). -/
theorem C6_mint_once (p : Addr) :
    (∀ (s : Store) (tr : List (OpCall × Bool)), ReachTr s tr →
      ((s.hasMinted p).getD false = true ↔ (OpCall.mintOp p, true) ∈ tr)) ∧
    (∀ (s : Store) (wl : List Addr), s.whitelist = some wl → wl.contains p = true →
      (s.hasMinted p).getD false = true → mint s p = .panic .alreadyMinted s) := by
  constructor
  · intro s tr h
    exact reach_hasMinted p h
  · intro s wl hw hc hm2
    have hc2 : p ∈ wl := by simpa using hc
    simp [mint, hw, hc2, hm2]

/-- Witness for C6: the fresh instance has no has-minted flag for 4 and an
empty trace, and at a store where whitelisted 4 already minted, `mint(4)`
fails with `AlreadyMinted` leaving the store untouched. -/
theorem C6_mint_once_witness :
    ((initStore.hasMinted 4).getD false = true ↔ (OpCall.mintOp 4, true) ∈ ([] : List (OpCall × Bool))) ∧
    mint sC3b 4 = .panic .alreadyMinted sC3b :=
  ⟨(C6_mint_once 4).1 initStore [] ReachTr.init,
   (C6_mint_once 4).2 sC3b [4] rfl (by decide) (by decide)⟩

/-- Whatever the scan loop returns is a MintTo record stored in the
`Approvals` slot of one of the scanned ids. -/
lemma findNft_ok_some {s : Store} {a : Addr} {ids : List Int} {r : MintTo}
    (h : findNft s a ids = .ok (some r)) :
    ∃ j ∈ ids, s.approvals j = some (.mintTo r) := by
  induction ids with
  | nil => simp [findNft] at h
  | cons id rest ih =>
    cases hap : s.approvals id with
    | none =>
      simp only [findNft, hap] at h
      obtain ⟨j, hj, hr⟩ := ih h
      exact ⟨j, List.mem_cons_of_mem _ hj, hr⟩
    | some v =>
      cases v with
      | vecAddr l =>
        simp only [findNft, hap] at h
        exact Except.noConfusion h
      | mintTo m =>
        simp only [findNft, hap] at h
        split at h
        · injection h with h1
          injection h1 with h1
          subst h1
          exact ⟨id, List.mem_cons_self _ _, hap⟩
        · obtain ⟨j, hj, hr⟩ := ih h
          exact ⟨j, List.mem_cons_of_mem _ hj, hr⟩

/-- After clearing `Approvals(i)`, any record the scan still returns is
supported by a slot other than `i`. -/
lemma get_nft_avoids_cleared {s : Store} {i : Int} (hnone : s.approvals i = none)
    {a : Addr} {r : MintTo} (h : get_nft_by_address s a = .ok (some r)) :
    ∃ j, j ≠ i ∧ s.approvals j = some (.mintTo r) := by
  obtain ⟨j, -, hr⟩ := findNft_ok_some h
  refine ⟨j, ?_, hr⟩
  intro hji
  rw [hji, hnone] at hr
  exact Option.noConfusion hr

/-- C10: `mint` writes the token's MintTo record into the very
`Approvals(token id)` entry the approval machinery uses; a successful
`transfer` or `transfer_from` removes that entry, so afterwards
`get_token_image` and `get_token_metadata` fail and `get_nft_by_address`
can no longer return that token's record, even though the token is still
owned (by the recipient). -/
theorem C10_transfer_erases_mint_record :
    (∀ (s : Store) (d : Addr) (u : Unit) (s' : Store) (evs : List Event),
      mint s d = .ok u s' evs →
      s'.approvals (s'.tokenCount.getD 0)
        = some (.mintTo { address := d, token_id := s'.tokenCount.getD 0,
                          metadata := METADATA, image := IMAGE })) ∧
    (∀ (s : Store) (o d : Addr) (i : Int) (u : Unit) (s' : Store) (evs : List Event),
      transfer s o d i = .ok u s' evs →
      s'.approvals i = none ∧ owner_of s' i = d ∧
      get_token_image s' i = .error .tokenNotFound ∧
      get_token_metadata s' i = .error .tokenNotFound ∧
      (∀ (a : Addr) (r : MintTo), get_nft_by_address s' a = .ok (some r) →
        ∃ j, j ≠ i ∧ s'.approvals j = some (.mintTo r))) ∧
    (∀ (s : Store) (sp f d : Addr) (i : Int) (u : Unit) (s' : Store) (evs : List Event),
      transfer_from s sp f d i = .ok u s' evs →
      s'.approvals i = none ∧ owner_of s' i = d ∧
      get_token_image s' i = .error .tokenNotFound ∧
      get_token_metadata s' i = .error .tokenNotFound ∧
      (∀ (a : Addr) (r : MintTo), get_nft_by_address s' a = .ok (some r) →
        ∃ j, j ≠ i ∧ s'.approvals j = some (.mintTo r))) := by
  refine ⟨?_, ?_, ?_⟩
  · intro s d u s' evs h
    obtain ⟨-, -, -, hs', -⟩ := mint_ok h
    subst hs'
    simp [upd]
  · intro s o d i u s' evs h
    obtain ⟨-, hs', -⟩ := transfer_ok h
    subst hs'
    have hnone : ({ s with owner := upd s.owner i d, approvals := del s.approvals i } : Store).approvals i = none := by
      simp [del]
    refine ⟨hnone, by simp [owner_of, upd],
            by simp [get_token_image, del], by simp [get_token_metadata, del], ?_⟩
    intro a r hscan
    exact get_nft_avoids_cleared hnone hscan
  · intro s sp f d i u s' evs h
    obtain ⟨-, -, hs', -⟩ := transfer_from_ok h
    subst hs'
    have hnone : ({ s with owner := upd s.owner i d, approvals := del s.approvals i } : Store).approvals i = none := by
      simp [del]
    refine ⟨hnone, by simp [owner_of, upd],
            by simp [get_token_image, del], by simp [get_token_metadata, del], ?_⟩
    intro a r hscan
    exact get_nft_avoids_cleared hnone hscan

/-- `sWl2` after `mint(2)`: the MintTo record sits under `Approvals(1)`. -/
def sMintedWl2 : Store :=
  { initStore with
    whitelist := some [2],
    tokenCount := some 1,
    owner := upd initStore.owner 1 2,
    approvals := upd initStore.approvals 1
      (.mintTo { address := 2, token_id := 1, metadata := METADATA, image := IMAGE }),
    hasMinted := upd initStore.hasMinted 2 true }

/-- Witness for C10: `mint(2)` on `sWl2` leaves the MintTo record under
`Approvals(1)`; `transfer(2, 7, 1)` (and likewise `transfer_from(3, 2, 7, 1)`)
on `sTok` clears the entry, keeps the token owned by 7, and makes the
metadata getters fail. -/
theorem C10_transfer_erases_mint_record_witness :
    sMintedWl2.approvals (sMintedWl2.tokenCount.getD 0)
      = some (.mintTo { address := 2, token_id := sMintedWl2.tokenCount.getD 0,
                        metadata := METADATA, image := IMAGE }) ∧
    (sTokMoved.approvals 1 = none ∧ owner_of sTokMoved 1 = 7 ∧
      get_token_image sTokMoved 1 = .error .tokenNotFound) ∧
    get_token_metadata sTokMoved 1 = .error .tokenNotFound :=
  ⟨C10_transfer_erases_mint_record.1 sWl2 2 () sMintedWl2 [.mintEv 2 1] rfl,
   (fun h => ⟨h.1, h.2.1, h.2.2.1⟩)
     (C10_transfer_erases_mint_record.2.1 sTok 2 7 1 () sTokMoved [.transferEv 2 7 1] rfl),
   (C10_transfer_erases_mint_record.2.2 sTok 3 2 7 1 () sTokMoved [.transferEv 2 7 1] rfl).2.2.2.1⟩

end StallionNFT
